import Mathlib

/-!
Verification of the reviewbot repository (webhook ingress, worker scheduler,
reviewer pipeline, token store, diff formatter, JSON envelope).

All definitions are shallow embeddings of the TypeScript source.  JavaScript
strings are modelled as `List Char`; machine integers and JS numbers used as
integers are modelled as `Int`/`Nat`; fallible code returns `Option`/`Except`;
external effects (HTTP probes, the queue backend, the database) are passed in
explicitly as function arguments or records.
-/

namespace Reviewbot

/-- JavaScript strings are sequences of characters. -/
abbrev Str := List Char

/-- Characters removed by JavaScript `String.prototype.trim` (ASCII subset). -/
def jsWhitespace (c : Char) : Bool :=
  c = ' ' || c = '\t' || c = '\n' || c = '\r' || c = '\x0b' || c = '\x0c'

/-- JavaScript `s.trim()`. -/
def trimChars (s : Str) : Str :=
  ((s.dropWhile jsWhitespace).reverse.dropWhile jsWhitespace).reverse

/-- If `lit` is a leading literal of `s`, return the remainder (models
`s.startsWith(lit)` followed by `s.slice(lit.length)`). -/
def dropPre : Str → Str → Option Str
  | [], s => some s
  | _ :: _, [] => none
  | c :: cs, d :: ds => if c = d then dropPre cs ds else none

/-- If `lit` is a trailing literal of `s`, return the front (models
`s.endsWith(lit)` followed by `s.slice(0, -lit.length)`). -/
def dropSuf (lit s : Str) : Option Str :=
  (dropPre lit.reverse s.reverse).map List.reverse

/-- JavaScript `s.toLowerCase()` (character-wise; ASCII-faithful). -/
def lowerStr (s : Str) : Str := s.map Char.toLower

/-- Decimal rendering of a natural number, as used by template literals. -/
def natToStr (n : Nat) : Str := (Nat.repr n).data

-- ---------------------------------------------------------------------------
-- Review comments (worker/src/prompts/review.ts `ReviewComment`)
-- ---------------------------------------------------------------------------

/-- One inline review comment produced by the agent. -/
structure ReviewComment where
  file : Str
  line : Int
  endLine : Option Int := none
  severity : Str
  category : Str := []
  message : Str
  suggestion : Option Str := none
deriving DecidableEq, Repr

def sevSuggestion : Str := "suggestion".data

-- ---------------------------------------------------------------------------
-- Dedup (worker/src/review.ts `isDuplicateComment` and the dedup step)
-- ---------------------------------------------------------------------------

/-- worker/src/review.ts lines 66-79: a new comment is a duplicate of a
previously flagged one when some previous comment has the same file, a line
within 3, and the same lowercased first-80-character message. -/
def isDuplicateComment (comment : ReviewComment) (previous : List ReviewComment) : Bool :=
  previous.any fun prev =>
    if prev.file ≠ comment.file then false
    else if 3 < (prev.line - comment.line).natAbs then false
    else lowerStr (prev.message.take 80) = lowerStr (comment.message.take 80)

/-- worker/src/review.ts lines 418-426: when both the prior flattened comment
list and the fresh comment list are non-empty, drop fresh comments that are
duplicates of prior ones. -/
def dedupComments (previousComments comments : List ReviewComment) : List ReviewComment :=
  if 0 < previousComments.length ∧ 0 < comments.length then
    comments.filter fun c => ! isDuplicateComment c previousComments
  else comments

/-- The matching relation of `isDuplicateComment`, spelled out as a
proposition for the dedup characterization. -/
def matchesPrior (p c : ReviewComment) : Prop :=
  p.file = c.file ∧ (p.line - c.line).natAbs ≤ 3 ∧
    lowerStr (p.message.take 80) = lowerStr (c.message.take 80)

instance (p c : ReviewComment) : Decidable (matchesPrior p c) := by
  unfold matchesPrior; infer_instance

-- ---------------------------------------------------------------------------
-- Comment-count post-processing (worker/src/review.ts lines 410-416)
-- ---------------------------------------------------------------------------

/-- worker/src/review.ts lines 410-416: truncate to `maxComments` comments,
then, if more than 5 remain, drop all comments of severity `suggestion`. -/
def enforceCommentLimits (maxComments : Nat) (comments : List ReviewComment) :
    List ReviewComment :=
  let c1 := if maxComments < comments.length then comments.take maxComments else comments
  if 5 < c1.length then c1.filter (fun c => c.severity ≠ sevSuggestion) else c1

/-- worker/src/review.ts lines 410-426: the full post-processing pipeline on
the parsed comment list — limits first, then dedup against prior comments. -/
def postprocessComments (maxComments : Nat) (prior comments : List ReviewComment) :
    List ReviewComment :=
  dedupComments prior (enforceCommentLimits maxComments comments)

-- ---------------------------------------------------------------------------
-- Posting (worker/src/github.ts `postGitHubReview`, worker/src/gitlab.ts
-- `postGitLabReview`), modelled as the list of forge HTTP requests issued
-- ---------------------------------------------------------------------------

/-- A forge HTTP request issued while posting a review. -/
inductive ForgeRequest where
  /-- `POST /repos/:name/pulls/:n/reviews` carrying the given comments. -/
  | ghReview (comments : List ReviewComment)
  /-- `POST /projects/:id/merge_requests/:iid/discussions` for one comment. -/
  | glDiscussion (comment : ReviewComment)
deriving DecidableEq

/-- worker/src/github.ts lines 104-197: with no comments, return before any
request; otherwise attempt one atomic review, and when the atomic post is
rejected fall back to one single-comment review per comment.  `atomicOk`
abstracts the forge's response to the atomic attempt. -/
def postGitHubReview (comments : List ReviewComment) (atomicOk : Bool) :
    List ForgeRequest :=
  if comments.length = 0 then []
  else if atomicOk then [ForgeRequest.ghReview comments]
  else ForgeRequest.ghReview comments :: comments.map (fun c => ForgeRequest.ghReview [c])

/-- worker/src/gitlab.ts lines 120-165: with no comments, return before any
request; otherwise one discussion request per comment (individual failures
are logged and skipped, but the request is still issued). -/
def postGitLabReview (comments : List ReviewComment) : List ForgeRequest :=
  if comments.length = 0 then []
  else comments.map ForgeRequest.glDiscussion

-- ---------------------------------------------------------------------------
-- Lemmas about dedup
-- ---------------------------------------------------------------------------

lemma isDuplicateComment_eq_true_iff (c : ReviewComment) (prior : List ReviewComment) :
    isDuplicateComment c prior = true ↔ ∃ p ∈ prior, matchesPrior p c := by
  unfold isDuplicateComment
  rw [List.any_eq_true]
  constructor
  · rintro ⟨p, hp, hpred⟩
    refine ⟨p, hp, ?_⟩
    by_cases h1 : p.file = c.file
    · by_cases h2 : 3 < (p.line - c.line).natAbs
      · simp [h1, h2] at hpred
      · refine ⟨h1, by omega, ?_⟩
        simp [h1, h2] at hpred
        exact hpred
    · simp [h1] at hpred
  · rintro ⟨p, hp, h1, h2, h3⟩
    refine ⟨p, hp, ?_⟩
    have h2' : ¬ 3 < (p.line - c.line).natAbs := by omega
    simp [h1, h2', h3]

lemma matchesPrior_self (c : ReviewComment) : matchesPrior c c :=
  ⟨rfl, by simp, rfl⟩

lemma mem_dedupComments_iff (prior cs : List ReviewComment) (c : ReviewComment) :
    c ∈ dedupComments prior cs ↔ c ∈ cs ∧ ¬ ∃ p ∈ prior, matchesPrior p c := by
  unfold dedupComments
  by_cases hg : 0 < prior.length ∧ 0 < cs.length
  · simp only [hg, if_true, List.mem_filter, Bool.not_eq_true']
    rw [← isDuplicateComment_eq_true_iff]
    simp
  · simp only [hg, if_false]
    rcases not_and_or.mp hg with h | h
    · have hprior : prior = [] := by
        cases prior with
        | nil => rfl
        | cons a l => simp at h
      subst hprior
      simp
    · have hcs : cs = [] := by
        cases cs with
        | nil => rfl
        | cons a l => simp at h
      subst hcs
      simp

lemma dedupComments_eq_nil_of_subset (prior cs : List ReviewComment)
    (h : ∀ c ∈ cs, c ∈ prior) : dedupComments prior cs = [] := by
  cases hcs : cs with
  | nil => subst hcs; simp [dedupComments]
  | cons a l =>
    subst hcs
    have hmem : a ∈ prior := h a (by simp)
    have hprior : 0 < prior.length := List.length_pos_of_mem hmem
    unfold dedupComments
    have hg : 0 < prior.length ∧ 0 < (a :: l).length := ⟨hprior, by simp⟩
    rw [if_pos hg]
    rw [List.filter_eq_nil_iff]
    intro c hc
    have hdup : isDuplicateComment c prior = true := by
      rw [isDuplicateComment_eq_true_iff]
      exact ⟨c, h c hc, matchesPrior_self c⟩
    simp [hdup]

/-- C5: a new comment is dropped by the dedup step exactly when some prior
comment matches it on file, line within 3, and lowercased 80-char message
head; and a comment set that is wholly contained in the prior set leads to an
empty surviving list and therefore to zero posted comments on either forge. -/
theorem c5_dedup_characterization (prior cs : List ReviewComment) :
    (∀ c, c ∈ dedupComments prior cs ↔ c ∈ cs ∧ ¬ ∃ p ∈ prior, matchesPrior p c)
    ∧ ((∀ c ∈ cs, c ∈ prior) →
        dedupComments prior cs = []
        ∧ (∀ atomicOk, postGitHubReview (dedupComments prior cs) atomicOk = [])
        ∧ postGitLabReview (dedupComments prior cs) = []) := by
  refine ⟨fun c => mem_dedupComments_iff prior cs c, fun h => ?_⟩
  have hnil := dedupComments_eq_nil_of_subset prior cs h
  refine ⟨hnil, fun atomicOk => ?_, ?_⟩
  · rw [hnil]; rfl
  · rw [hnil]; rfl

/-- Witness for C5 at a concrete prior/new comment pair: a fresh comment two
lines away from a stored one with the same message is dropped. -/
theorem c5_dedup_characterization_witness :
    dedupComments
      [{ file := "a.ts".data, line := 10, severity := "warning".data,
         message := "unchecked null".data }]
      [{ file := "a.ts".data, line := 10, severity := "warning".data,
         message := "unchecked null".data }] = [] := by
  have h := (c5_dedup_characterization
    [{ file := "a.ts".data, line := 10, severity := "warning".data,
       message := "unchecked null".data }]
    [{ file := "a.ts".data, line := 10, severity := "warning".data,
       message := "unchecked null".data }]).2 (by intro c hc; simpa using hc)
  exact h.1

-- ---------------------------------------------------------------------------
-- C6: order of the comment-limit steps
-- ---------------------------------------------------------------------------

/-- C6: post-processing truncates to the first `maxComments` entries first and
only then, when more than 5 comments remain, removes exactly the comments of
severity `suggestion`; the result is always an order-preserving sublist of
the input, and the whole step happens before dedup. -/
theorem c6_postprocess_order (m : Nat) (cs : List ReviewComment) :
    enforceCommentLimits m cs =
      (if 5 < (cs.take m).length then
        (cs.take m).filter (fun c => c.severity ≠ sevSuggestion)
      else cs.take m)
    ∧ (enforceCommentLimits m cs).Sublist cs
    ∧ (5 < (cs.take m).length →
        ∀ c, c ∈ enforceCommentLimits m cs ↔ c ∈ cs.take m ∧ c.severity ≠ sevSuggestion)
    ∧ (∀ prior, postprocessComments m prior cs =
        dedupComments prior (enforceCommentLimits m cs)) := by
  have htake : (if m < cs.length then cs.take m else cs) = cs.take m := by
    by_cases h : m < cs.length
    · simp [h]
    · simp only [h, if_false]
      exact (List.take_of_length_le (by omega)).symm
  have hmain : enforceCommentLimits m cs =
      (if 5 < (cs.take m).length then
        (cs.take m).filter (fun c => c.severity ≠ sevSuggestion)
      else cs.take m) := by
    unfold enforceCommentLimits
    rw [htake]
  refine ⟨hmain, ?_, ?_, fun prior => rfl⟩
  · rw [hmain]
    by_cases h5 : 5 < (cs.take m).length
    · simp only [h5, if_true]
      exact ((cs.take m).filter_sublist).trans (List.take_sublist m cs)
    · simp only [h5, if_false]
      exact List.take_sublist m cs
  · intro h5 c
    rw [hmain, if_pos h5, List.mem_filter]
    simp

/-- Witness for C6: with `max_comments = 2`, only the first two comments
survive, in order. -/
theorem c6_postprocess_order_witness :
    enforceCommentLimits 2
      [{ file := "a".data, line := 1, severity := "critical".data, message := "m1".data },
       { file := "b".data, line := 2, severity := "warning".data, message := "m2".data },
       { file := "c".data, line := 3, severity := "suggestion".data, message := "m3".data }]
    = [{ file := "a".data, line := 1, severity := "critical".data, message := "m1".data },
       { file := "b".data, line := 2, severity := "warning".data, message := "m2".data }] := by
  have h := (c6_postprocess_order 2
    [{ file := "a".data, line := 1, severity := "critical".data, message := "m1".data },
     { file := "b".data, line := 2, severity := "warning".data, message := "m2".data },
     { file := "c".data, line := 3, severity := "suggestion".data, message := "m3".data }]).1
  rw [h]
  decide

-- ---------------------------------------------------------------------------
-- C10: empty surviving comment list issues no forge request
-- ---------------------------------------------------------------------------

/-- C10: both posting adapters issue no HTTP request exactly when the
surviving comment list is empty — no empty review or discussion is ever
created on the forge. -/
theorem c10_empty_comments_no_requests (cs : List ReviewComment) (atomicOk : Bool) :
    (postGitHubReview cs atomicOk = [] ↔ cs = [])
    ∧ (postGitLabReview cs = [] ↔ cs = []) := by
  constructor
  · unfold postGitHubReview
    cases cs with
    | nil => simp
    | cons a l =>
      simp only [List.length_cons, List.length_eq_zero]
      by_cases h : atomicOk <;> simp [h]
  · unfold postGitLabReview
    cases cs with
    | nil => simp
    | cons a l => simp

/-- Witness for C10 at concrete inputs. -/
theorem c10_empty_comments_no_requests_witness :
    postGitHubReview [] true = [] ∧ postGitLabReview [] = [] :=
  ⟨(c10_empty_comments_no_requests [] true).1.mpr rfl,
   (c10_empty_comments_no_requests [] true).2.mpr rfl⟩

-- ---------------------------------------------------------------------------
-- Subscription admission control (worker/src/review.ts lines 136-165, 477-482)
-- ---------------------------------------------------------------------------

/-- The columns selected from `subscriptions` by the reviewer. -/
structure SubscriptionRow where
  plan : Str
  status : Str
  /-- `review_count_month`; nullable column, `?? 0` applied in code. -/
  review_count_month : Option Int
  /-- `review_count_reset_at` as an epoch timestamp in milliseconds. -/
  review_count_reset_at : Option Int
deriving DecidableEq

/-- worker/src/review.ts line 142: `sub?.plan === 'pro' && sub?.status === 'active'`. -/
def isProSub (sub : Option SubscriptionRow) : Bool :=
  match sub with
  | some s => s.plan = "pro".data ∧ s.status = "active".data
  | none => false

/-- 30 days in milliseconds (worker/src/review.ts line 151). -/
def monthMs : Int := 30 * 24 * 60 * 60 * 1000

/-- Outcome of the subscription-limit step of `reviewPR`. -/
structure AdmissionOutcome where
  isPro : Bool
  /-- whether the monthly counter was reset (and written back) in this step -/
  didResetCounter : Bool
  /-- whether the job is skipped because the free-plan limit is reached -/
  skipped : Bool
deriving DecidableEq, Repr

/-- worker/src/review.ts lines 136-165: pro subscriptions pass through; for
everyone else the counter is reset when more than 30 days have passed since
`review_count_reset_at`, and the job is skipped when the (possibly reset)
counter has reached 50. -/
def checkSubscription (now : Int) (sub : Option SubscriptionRow) : AdmissionOutcome :=
  if isProSub sub then
    { isPro := true, didResetCounter := false, skipped := false }
  else
    let count0 : Int := (sub.bind (fun s => s.review_count_month)).getD 0
    let didReset : Bool :=
      match sub.bind (fun s => s.review_count_reset_at) with
      | some resetAt => monthMs < now - resetAt
      | none => false
    let reviewCount : Int := if didReset then 0 else count0
    { isPro := false, didResetCounter := didReset, skipped := 50 ≤ reviewCount }

/-- worker/src/review.ts lines 477-482: `increment_review_count` is invoked
after a stored review exactly for non-pro subscriptions. -/
def incrementsReviewCounter (sub : Option SubscriptionRow) : Bool :=
  ! isProSub sub

/-- C9: a subscription counts as pro only when `plan = pro` and
`status = active`; any other subscription (wrong plan, non-active status, or
a missing row) goes through the free path: the counter resets when more than
30 days passed since `review_count_reset_at`, the job is skipped exactly when
the effective counter is at least 50, and the monthly counter is incremented
after a completed review exactly in that case. -/
theorem c9_subscription_gate (now : Int) (sub : Option SubscriptionRow) :
    (isProSub sub = true ↔
      ∃ s, sub = some s ∧ s.plan = "pro".data ∧ s.status = "active".data)
    ∧ (isProSub sub = true → checkSubscription now sub =
        { isPro := true, didResetCounter := false, skipped := false })
    ∧ (isProSub sub = false →
        ((checkSubscription now sub).didResetCounter = true ↔
          ∃ resetAt, sub.bind (fun s => s.review_count_reset_at) = some resetAt ∧
            monthMs < now - resetAt)
        ∧ ((checkSubscription now sub).skipped = true ↔
            50 ≤ (if (checkSubscription now sub).didResetCounter then 0 else
              (sub.bind (fun s => s.review_count_month)).getD 0))
        ∧ (checkSubscription now sub).isPro = false)
    ∧ (incrementsReviewCounter sub = ! isProSub sub) := by
  refine ⟨?_, ?_, ?_, rfl⟩
  · unfold isProSub
    cases sub with
    | none => simp
    | some s => simp
  · intro h
    unfold checkSubscription
    rw [if_pos h]
  · intro h
    unfold checkSubscription
    rw [if_neg (by simp [h])]
    refine ⟨?_, ?_, rfl⟩
    · cases hr : sub.bind (fun s => s.review_count_reset_at) with
      | none => simp [hr]
      | some resetAt => simp [hr, decide_eq_true_iff]
    · cases hr : sub.bind (fun s => s.review_count_reset_at) with
      | none => simp [hr, decide_eq_true_iff]
      | some resetAt =>
        by_cases hm : monthMs < now - resetAt <;>
          simp [hr, hm, decide_eq_true_iff]

/-- A sample subscription row for the C9 witness: plan `pro` but status
`canceled`, counter at the limit, reset 100 ms ago. -/
def c9SampleSub : Option SubscriptionRow :=
  some { plan := "pro".data, status := "canceled".data,
         review_count_month := some 50, review_count_reset_at := some 900 }

/-- Witness for C9: a `pro` plan with status `canceled` takes the free path,
is skipped at a counter of 50, and would be counted after a review. -/
theorem c9_subscription_gate_witness :
    (checkSubscription 1000 c9SampleSub).skipped = true
    ∧ incrementsReviewCounter c9SampleSub = true := by
  refine ⟨((c9_subscription_gate 1000 c9SampleSub).2.2.1 (by decide)).2.1.mpr ?_, ?_⟩
  · decide
  · rw [(c9_subscription_gate 1000 c9SampleSub).2.2.2]
    decide

-- ---------------------------------------------------------------------------
-- Token store (worker/src/token.ts)
-- ---------------------------------------------------------------------------

/-- The token-bearing columns of `user_settings` read by the worker. -/
structure UserSettingsTokens where
  github_token : Option Str := none
  github_refresh_token : Option Str := none
  gitlab_token : Option Str := none
  gitlab_refresh_token : Option Str := none
deriving DecidableEq

/-- Look up a `user_settings` column by name (the worker selects columns by
the strings produced by `tokenColumns`). -/
def getSettingsColumn (row : UserSettingsTokens) (col : Str) : Option Str :=
  if col = "github_token".data then row.github_token
  else if col = "github_refresh_token".data then row.github_refresh_token
  else if col = "gitlab_token".data then row.gitlab_token
  else if col = "gitlab_refresh_token".data then row.gitlab_refresh_token
  else none

/-- worker/src/token.ts lines 161-166: map a provider to its column pair;
any provider other than github/gitlab (after lowercasing) throws. -/
def tokenColumns (provider : Str) : Except Str (Str × Str) :=
  let p := lowerStr provider
  if p = "github".data then
    Except.ok ("github_token".data, "github_refresh_token".data)
  else if p = "gitlab".data then
    Except.ok ("gitlab_token".data, "gitlab_refresh_token".data)
  else Except.error ("Unsupported provider: ".data ++ provider)

/-- External effects of the token store: the `whoami` probe of an access
token and the two OAuth refresh endpoints.  A refresh returning `none`
models a network error, a non-2xx response, an error body, or a missing
access token in the body. -/
structure TokenEnv where
  testToken : Str → Str → Bool
  refreshGitHub : Str → Option (Str × Str)
  refreshGitLab : Str → Option (Str × Str)

/-- worker/src/token.ts lines 146-155: dispatch a refresh on the lowercased
provider; unsupported providers yield `null`. -/
def refreshProviderToken (env : TokenEnv) (provider refreshToken : Str) :
    Option (Str × Str) :=
  let p := lowerStr provider
  if p = "github".data then env.refreshGitHub refreshToken
  else if p = "gitlab".data then env.refreshGitLab refreshToken
  else none

/-- worker/src/token.ts lines 176-199: read the provider token pair from
`user_settings`; `none` row or missing token column yields `null`.  The
`tokenColumns` exception propagates. -/
def readProviderToken (row : Option UserSettingsTokens) (provider : Str) :
    Except Str (Option (Str × Option Str)) := do
  let cols ← tokenColumns provider
  match row with
  | none => return none
  | some r =>
    match getSettingsColumn r cols.1 with
    | none => return none
    | some token => return some (token, getSettingsColumn r cols.2)

/-- worker/src/token.ts lines 239-278: read, probe, refresh-on-expiry.
Returns the valid access token, or `none` when the user must
re-authenticate; exceptions from `tokenColumns` propagate. -/
def getValidProviderToken (env : TokenEnv) (row : Option UserSettingsTokens)
    (provider : Str) : Except Str (Option Str) := do
  let tokens ← readProviderToken row provider
  match tokens with
  | none => return none
  | some (token, refreshTok) =>
    if env.testToken token provider then
      return some token
    else
      match refreshTok with
      | none => return none
      | some rt =>
        match refreshProviderToken env provider rt with
        | none => return none
        | some (access, _) => return some access

/-- worker/src/review.ts line 168: the reviewer calls
`getValidProviderToken(supabase, user_id, repo_slug, provider)` — but the
function takes `(supabase, userId, provider)`, so at runtime `repo_slug`
occupies the `provider` parameter and the trailing `provider` argument is
ignored. -/
def reviewObtainProviderToken (env : TokenEnv) (row : Option UserSettingsTokens)
    (repo_slug _provider : Str) : Except Str (Option Str) :=
  getValidProviderToken env row repo_slug

/-- An environment whose probe accepts every token and that never refreshes,
for the C1 evaluation. -/
def alwaysValidEnv : TokenEnv :=
  { testToken := fun _ _ => true
    refreshGitHub := fun _ => none
    refreshGitLab := fun _ => none }

/-- C1: the reviewer's token step does not look up the token under the job's
provider: because `repo_slug` is passed where the provider parameter goes,
a job for repo slug `acme-api` on provider `github` throws
`Unsupported provider: acme-api` (so the message is redelivered rather than
the job being skipped), even though the store holds a valid GitHub token
that the intended call `getValidProviderToken(user, "github")` returns. -/
theorem c1_token_lookup_uses_repo_slug :
    reviewObtainProviderToken alwaysValidEnv
        (some { github_token := some "gho_valid".data })
        "acme-api".data "github".data
      = Except.error ("Unsupported provider: acme-api".data)
    ∧ getValidProviderToken alwaysValidEnv
        (some { github_token := some "gho_valid".data })
        "github".data
      = Except.ok (some "gho_valid".data) := by
  exact ⟨rfl, rfl⟩

-- ---------------------------------------------------------------------------
-- Webhook ingress (supabase edge function, src/unnamed/part_002)
-- ---------------------------------------------------------------------------

/-- A `connected_repositories` row as selected by the ingress handlers. -/
structure RepoRow where
  user_id : Str
  slug : Str
  name : Str
  provider : Str := []
  status : Str
  webhook_secret : Option Str := none
deriving DecidableEq

/-- The normalized event payload enqueued to `webhook_events`
(`received_at`, a wall-clock read, is omitted from the model). -/
structure WebhookEventPayload where
  repo_slug : Str
  repo_name : Str
  provider : Str
  event_type : Str
  pr_number : Int
  pr_title : Str
  pr_url : Str
  pr_author : Str
  base_branch : Str
  head_branch : Str
  action : Str
  user_id : Str
deriving DecidableEq

/-- The fields the GitHub handler reads from a parsed webhook body; the
`?? default` fallbacks of the source are already applied to the `pr*`
fields.  `action`/`repoFullName` are `none` when absent. -/
structure GitHubBody where
  action : Option Str
  repoFullName : Option Str
  prNumber : Int := 0
  prTitle : Str := []
  prUrl : Str := []
  prAuthor : Str := "unknown".data
  baseBranch : Str := []
  headBranch : Str := []
deriving DecidableEq

/-- The fields the GitLab handler reads from a parsed webhook body. -/
structure GitLabBody where
  action : Option Str
  projectPath : Option Str
  prNumber : Int := 0
  prTitle : Str := []
  prUrl : Str := []
  prAuthor : Str := "unknown".data
  baseBranch : Str := []
  headBranch : Str := []
deriving DecidableEq

/-- JavaScript truthiness on an optional string: absent and empty are falsy. -/
def truthyOpt (o : Option Str) : Option Str :=
  match o with
  | some s => if s = [] then none else some s
  | none => none

/-- part_002 lines 119-132. -/
def mapGitHubAction (action : Str) : Str :=
  if action = "opened".data then "pr_opened".data
  else if action = "synchronize".data then "pr_updated".data
  else if action = "reopened".data then "pr_reopened".data
  else if action = "closed".data then "pr_closed".data
  else "pr_opened".data

/-- part_002 lines 134-148. -/
def mapGitLabAction (action : Str) : Str :=
  if action = "open".data then "pr_opened".data
  else if action = "update".data then "pr_updated".data
  else if action = "reopen".data then "pr_reopened".data
  else if action = "close".data then "pr_closed".data
  else if action = "merge".data then "pr_closed".data
  else "pr_opened".data

def githubPRActions : List Str :=
  ["opened".data, "synchronize".data, "reopened".data, "closed".data]

def gitlabMRActions : List Str :=
  ["open".data, "update".data, "reopen".data, "close".data, "merge".data]

/-- part_002 lines 81-85 and 94-98: the byte-xor accumulator comparison,
run after the length check. -/
def constTimeEq (a b : Str) : Bool :=
  ((a.zip b).foldl (fun diff p => diff ||| (p.1.toNat ^^^ p.2.toNat)) 0) = 0

/-- part_002 lines 88-99 `verifyGitLabToken`: falsy token or secret fails,
then length check, then constant-time comparison. -/
def verifyGitLabToken (token : Option Str) (secret : Str) : Bool :=
  match token with
  | none => false
  | some t =>
    if t = [] then false
    else if secret = [] then false
    else if t.length ≠ secret.length then false
    else constTimeEq t secret

/-- An ingress response: HTTP status plus the queue messages whose send
succeeded. -/
structure IngressResult where
  status : Nat
  enqueued : List WebhookEventPayload
deriving DecidableEq

/-- The fan-out loop shared by both handlers (part_002 lines 220-248 and
345-373): paused rows are skipped, a payload is enqueued per remaining row,
and a failed send is logged and swallowed. -/
def enqueueFanout (mk : RepoRow → WebhookEventPayload) (repos : List RepoRow)
    (sendOk : RepoRow → Bool) : List WebhookEventPayload :=
  repos.filterMap fun r =>
    if r.status = "paused".data then none
    else if sendOk r then some (mk r) else none

/-- The payload built per matched row in the GitHub handler. -/
def mkGitHubPayload (b : GitHubBody) (a : Str) (r : RepoRow) : WebhookEventPayload :=
  { repo_slug := r.slug, repo_name := r.name, provider := "github".data,
    event_type := mapGitHubAction a, pr_number := b.prNumber,
    pr_title := b.prTitle, pr_url := b.prUrl, pr_author := b.prAuthor,
    base_branch := b.baseBranch, head_branch := b.headBranch,
    action := a, user_id := r.user_id }

/-- The payload built per matched row in the GitLab handler. -/
def mkGitLabPayload (b : GitLabBody) (a : Str) (r : RepoRow) : WebhookEventPayload :=
  { repo_slug := r.slug, repo_name := r.name, provider := "gitlab".data,
    event_type := mapGitLabAction a, pr_number := b.prNumber,
    pr_title := b.prTitle, pr_url := b.prUrl, pr_author := b.prAuthor,
    base_branch := b.baseBranch, head_branch := b.headBranch,
    action := a, user_id := r.user_id }

/-- part_002 lines 154-249 `handleGitHub`.  `secretConfigured` models the
presence of `GITHUB_WEBHOOK_SECRET`, `signatureValid` the HMAC check
outcome, `body` the result of `JSON.parse` (`none` = throw), `lookup` the
repository query, `sendOk` the per-row queue send outcome. -/
def handleGitHub (event : Str) (secretConfigured signatureValid : Bool)
    (body : Option GitHubBody) (lookup : Except Unit (List RepoRow))
    (sendOk : RepoRow → Bool) : IngressResult :=
  if event ≠ "pull_request".data then ⟨200, []⟩
  else if ! secretConfigured then ⟨500, []⟩
  else if ! signatureValid then ⟨401, []⟩
  else
    match body with
    | none => ⟨400, []⟩
    | some b =>
      match b.action with
      | none => ⟨200, []⟩
      | some a =>
        if ! githubPRActions.contains a then ⟨200, []⟩
        else
          match b.repoFullName with
          | none => ⟨400, []⟩
          | some _ =>
            match lookup with
            | Except.error _ => ⟨500, []⟩
            | Except.ok repos =>
              if repos.length = 0 then ⟨404, []⟩
              else ⟨200, enqueueFanout (mkGitHubPayload b a) repos sendOk⟩

/-- part_002 lines 255-374 `handleGitLab`: body is parsed first, the
`X-Gitlab-Token` header is verified against any matched row's
`webhook_secret`, then the fan-out runs. -/
def handleGitLab (event : Str) (body : Option GitLabBody)
    (lookup : Except Unit (List RepoRow)) (incomingToken : Option Str)
    (sendOk : RepoRow → Bool) : IngressResult :=
  if event ≠ "Merge Request Hook".data then ⟨200, []⟩
  else
    match body with
    | none => ⟨400, []⟩
    | some b =>
      match truthyOpt b.action with
      | none => ⟨200, []⟩
      | some a =>
        if ! gitlabMRActions.contains a then ⟨200, []⟩
        else
          match b.projectPath with
          | none => ⟨400, []⟩
          | some _ =>
            match lookup with
            | Except.error _ => ⟨500, []⟩
            | Except.ok repos =>
              if repos.length = 0 then ⟨404, []⟩
              else
                let verified := repos.any fun r =>
                  match r.webhook_secret with
                  | some secret => verifyGitLabToken incomingToken secret
                  | none => false
                if ! verified then ⟨401, []⟩
                else ⟨200, enqueueFanout (mkGitLabPayload b a) repos sendOk⟩

/-- part_002 lines 380-400: the top-level request handler — 405 on non-POST,
routing on the (truthy) event headers, 400 when neither is present. -/
def serveWebhook (method : Str) (ghEvent glEvent : Option Str)
    (gh : Str → IngressResult) (gl : Str → IngressResult) : IngressResult :=
  if method ≠ "POST".data then ⟨405, []⟩
  else
    match truthyOpt ghEvent with
    | some e => gh e
    | none =>
      match truthyOpt glEvent with
      | some e => gl e
      | none => ⟨400, []⟩

/-- A sample body/row pair for the C4 counterexample. -/
def ghBodySample : GitHubBody :=
  { action := some "opened".data, repoFullName := some "acme/api".data, prNumber := 42 }

def repoRowSample : RepoRow :=
  { user_id := "u1".data, slug := "acme-api".data, name := "acme/api".data,
    status := "active".data }

/-- C4 counterexample: a GitHub `pull_request` request with a valid
signature and an accepted action whose repo matches no connected row gets
status 404, not the claimed 200; and a request whose only failure is the
queue send gets status 200, not the claimed 500. -/
theorem c4_empty_match_and_enqueue_failure :
    (handleGitHub "pull_request".data true true (some ghBodySample)
        (Except.ok []) (fun _ => true)).status = 404
    ∧ handleGitHub "pull_request".data true true (some ghBodySample)
        (Except.ok [repoRowSample]) (fun _ => false)
      = ⟨200, []⟩ := by
  exact ⟨rfl, rfl⟩

/-- C4 (amended): response codes of the ingress — 200 on accepted and
skipped requests, 400 on malformed body or unknown source, 401 on
signature/token failure, 404 on empty match, 405 on non-POST, 500 on lookup
failure or missing GitHub secret configuration; per-row enqueue failures are
swallowed and the response is still 200. -/
theorem c4_response_codes :
    (∀ method ghE glE gh gl, method ≠ "POST".data →
      serveWebhook method ghE glE gh gl = ⟨405, []⟩)
    ∧ (∀ method gh gl, serveWebhook method none none gh gl
        = if method ≠ "POST".data then ⟨405, []⟩ else ⟨400, []⟩)
    ∧ (∀ e scfg sv body lookup sendOk, e ≠ "pull_request".data →
        handleGitHub e scfg sv body lookup sendOk = ⟨200, []⟩)
    ∧ (∀ e sv body lookup sendOk, e = "pull_request".data →
        handleGitHub e false sv body lookup sendOk = ⟨500, []⟩)
    ∧ (∀ e body lookup sendOk, e = "pull_request".data →
        handleGitHub e true false body lookup sendOk = ⟨401, []⟩)
    ∧ (∀ e lookup sendOk, e = "pull_request".data →
        handleGitHub e true true none lookup sendOk = ⟨400, []⟩)
    ∧ (∀ e b lookup sendOk a, e = "pull_request".data → b.action = some a →
        ¬ (githubPRActions.contains a = true) →
        handleGitHub e true true (some b) lookup sendOk = ⟨200, []⟩)
    ∧ (∀ e b lookup sendOk a, e = "pull_request".data → b.action = some a →
        githubPRActions.contains a = true → b.repoFullName = none →
        handleGitHub e true true (some b) lookup sendOk = ⟨400, []⟩)
    ∧ (∀ e b sendOk a p err, e = "pull_request".data → b.action = some a →
        githubPRActions.contains a = true → b.repoFullName = some p →
        handleGitHub e true true (some b) (Except.error err) sendOk = ⟨500, []⟩)
    ∧ (∀ e b sendOk a p, e = "pull_request".data → b.action = some a →
        githubPRActions.contains a = true → b.repoFullName = some p →
        handleGitHub e true true (some b) (Except.ok []) sendOk = ⟨404, []⟩)
    ∧ (∀ e b sendOk a p repos, e = "pull_request".data → b.action = some a →
        githubPRActions.contains a = true → b.repoFullName = some p →
        repos ≠ [] →
        (handleGitHub e true true (some b) (Except.ok repos) sendOk).status = 200)
    ∧ (∀ e body lookup tok sendOk, e ≠ "Merge Request Hook".data →
        handleGitLab e body lookup tok sendOk = ⟨200, []⟩)
    ∧ (∀ lookup tok sendOk,
        handleGitLab "Merge Request Hook".data none lookup tok sendOk = ⟨400, []⟩)
    ∧ (∀ b lookup tok sendOk a, truthyOpt b.action = some a →
        ¬ (gitlabMRActions.contains a = true) →
        handleGitLab "Merge Request Hook".data (some b) lookup tok sendOk
          = ⟨200, []⟩)
    ∧ (∀ b sendOk tok a p err, truthyOpt b.action = some a →
        gitlabMRActions.contains a = true → b.projectPath = some p →
        handleGitLab "Merge Request Hook".data (some b) (Except.error err) tok sendOk
          = ⟨500, []⟩)
    ∧ (∀ b sendOk tok a p, truthyOpt b.action = some a →
        gitlabMRActions.contains a = true → b.projectPath = some p →
        handleGitLab "Merge Request Hook".data (some b) (Except.ok []) tok sendOk
          = ⟨404, []⟩)
    ∧ (∀ b sendOk tok a p repos, truthyOpt b.action = some a →
        gitlabMRActions.contains a = true → b.projectPath = some p →
        repos ≠ [] →
        ¬ ((repos.any fun r =>
            match r.webhook_secret with
            | some secret => verifyGitLabToken tok secret
            | none => false) = true) →
        handleGitLab "Merge Request Hook".data (some b) (Except.ok repos) tok sendOk
          = ⟨401, []⟩)
    ∧ (∀ b sendOk tok a p repos, truthyOpt b.action = some a →
        gitlabMRActions.contains a = true → b.projectPath = some p →
        repos ≠ [] →
        (repos.any fun r =>
            match r.webhook_secret with
            | some secret => verifyGitLabToken tok secret
            | none => false) = true →
        (handleGitLab "Merge Request Hook".data (some b) (Except.ok repos) tok
          sendOk).status = 200) := by
  refine ⟨?_, ?_, ?_, ?_, ?_, ?_, ?_, ?_, ?_, ?_, ?_, ?_, ?_, ?_, ?_, ?_, ?_, ?_⟩
  · intro method ghE glE gh gl h
    simp [serveWebhook, h]
  · intro method gh gl
    by_cases h : method = "POST".data <;> simp [serveWebhook, truthyOpt, h]
  · intro e scfg sv body lookup sendOk h
    simp [handleGitHub, h]
  · intro e sv body lookup sendOk h
    simp [handleGitHub, h]
  · intro e body lookup sendOk h
    simp [handleGitHub, h]
  · intro e lookup sendOk h
    simp [handleGitHub, h]
  · intro e b lookup sendOk a he ha hnot
    have hnm : a ∉ githubPRActions := by simpa using hnot
    simp [handleGitHub, he, ha, hnm]
  · intro e b lookup sendOk a he ha hacc hnone
    have hm : a ∈ githubPRActions := by simpa using hacc
    simp [handleGitHub, he, ha, hm, hnone]
  · intro e b sendOk a p err he ha hacc hp
    have hm : a ∈ githubPRActions := by simpa using hacc
    simp [handleGitHub, he, ha, hm, hp]
  · intro e b sendOk a p he ha hacc hp
    have hm : a ∈ githubPRActions := by simpa using hacc
    simp [handleGitHub, he, ha, hm, hp]
  · intro e b sendOk a p repos he ha hacc hp hne
    have hm : a ∈ githubPRActions := by simpa using hacc
    have hlen : ¬ (repos.length = 0) := by
      cases repos with
      | nil => exact absurd rfl hne
      | cons x l => simp
    simp [handleGitHub, he, ha, hm, hp, hlen, hne]
  · intro e body lookup tok sendOk h
    simp [handleGitLab, h]
  · intro lookup tok sendOk
    simp [handleGitLab]
  · intro b lookup tok sendOk a ha hnot
    have hnm : a ∉ gitlabMRActions := by simpa using hnot
    simp [handleGitLab, ha, hnm]
  · intro b sendOk tok a p err ha hacc hp
    have hm : a ∈ gitlabMRActions := by simpa using hacc
    simp [handleGitLab, ha, hm, hp]
  · intro b sendOk tok a p ha hacc hp
    have hm : a ∈ gitlabMRActions := by simpa using hacc
    simp [handleGitLab, ha, hm, hp]
  · intro b sendOk tok a p repos ha hacc hp hne hver
    have hm : a ∈ gitlabMRActions := by simpa using hacc
    have hlen : ¬ (repos.length = 0) := by
      cases repos with
      | nil => exact absurd rfl hne
      | cons x l => simp
    simp [handleGitLab, ha, hm, hp, hlen, hne, hver]
  · intro b sendOk tok a p repos ha hacc hp hne hver
    have hm : a ∈ gitlabMRActions := by simpa using hacc
    have hlen : ¬ (repos.length = 0) := by
      cases repos with
      | nil => exact absurd rfl hne
      | cons x l => simp
    simp [handleGitLab, ha, hm, hp, hlen, hne, hver]

lemma enqueueFanout_all_ok (mk : RepoRow → WebhookEventPayload) (repos : List RepoRow)
    (sendOk : RepoRow → Bool) (h : ∀ r ∈ repos, sendOk r = true) :
    enqueueFanout mk repos sendOk
      = (repos.filter (fun r => r.status ≠ "paused".data)).map mk := by
  induction repos with
  | nil => rfl
  | cons r rs ih =>
    have hr : sendOk r = true := h r (by simp)
    have hrest : ∀ x ∈ rs, sendOk x = true := fun x hx => h x (by simp [hx])
    by_cases hp : r.status = "paused".data
    · have h1 : enqueueFanout mk (r :: rs) sendOk = enqueueFanout mk rs sendOk := by
        unfold enqueueFanout
        simp [hp]
      have h2 : (r :: rs).filter (fun x => x.status ≠ "paused".data)
          = rs.filter (fun x => x.status ≠ "paused".data) := by
        simp [List.filter_cons, hp]
      rw [h1, h2, ih hrest]
    · have h1 : enqueueFanout mk (r :: rs) sendOk = mk r :: enqueueFanout mk rs sendOk := by
        unfold enqueueFanout
        simp [hp, hr]
      have h2 : (r :: rs).filter (fun x => x.status ≠ "paused".data)
          = r :: rs.filter (fun x => x.status ≠ "paused".data) := by
        simp [List.filter_cons, hp]
      rw [h1, h2, List.map_cons, ih hrest]

/-- C7: for a webhook request that passes verification and carries an
accepted action, when every queue send succeeds the enqueued messages are
exactly one per matched row whose status is not `paused`, in particular
their number equals the number of such rows and each carries that row's
`user_id`. -/
theorem c7_enqueue_count :
    (∀ (b : GitHubBody) a p repos sendOk,
      b.action = some a → githubPRActions.contains a = true →
      b.repoFullName = some p → (∀ r ∈ repos, sendOk r = true) →
      (handleGitHub "pull_request".data true true (some b) (Except.ok repos)
          sendOk).enqueued
        = (repos.filter (fun r => r.status ≠ "paused".data)).map (mkGitHubPayload b a)
      ∧ (handleGitHub "pull_request".data true true (some b) (Except.ok repos)
          sendOk).enqueued.length
        = (repos.filter (fun r => r.status ≠ "paused".data)).length
      ∧ (handleGitHub "pull_request".data true true (some b) (Except.ok repos)
          sendOk).enqueued.map (fun pl => pl.user_id)
        = (repos.filter (fun r => r.status ≠ "paused".data)).map (fun r => r.user_id))
    ∧ (∀ (b : GitLabBody) a p repos tok sendOk,
      truthyOpt b.action = some a → gitlabMRActions.contains a = true →
      b.projectPath = some p → (∀ r ∈ repos, sendOk r = true) →
      (repos.any fun r =>
        match r.webhook_secret with
        | some secret => verifyGitLabToken tok secret
        | none => false) = true →
      (handleGitLab "Merge Request Hook".data (some b) (Except.ok repos) tok
          sendOk).enqueued
        = (repos.filter (fun r => r.status ≠ "paused".data)).map (mkGitLabPayload b a)
      ∧ (handleGitLab "Merge Request Hook".data (some b) (Except.ok repos) tok
          sendOk).enqueued.length
        = (repos.filter (fun r => r.status ≠ "paused".data)).length
      ∧ (handleGitLab "Merge Request Hook".data (some b) (Except.ok repos) tok
          sendOk).enqueued.map (fun pl => pl.user_id)
        = (repos.filter (fun r => r.status ≠ "paused".data)).map (fun r => r.user_id)) := by
  constructor
  · intro b a p repos sendOk ha hacc hp hsend
    have hm : a ∈ githubPRActions := by simpa using hacc
    have henq : (handleGitHub "pull_request".data true true (some b) (Except.ok repos)
        sendOk).enqueued
        = (repos.filter (fun r => r.status ≠ "paused".data)).map (mkGitHubPayload b a) := by
      cases repos with
      | nil => simp [handleGitHub, ha, hm, hp]
      | cons r rs =>
        have hlen : ¬ ((r :: rs).length = 0) := by simp
        simp only [handleGitHub, ha, hm, hp]
        rw [enqueueFanout_all_ok _ _ _ hsend]
        simp [hlen, hm]
    refine ⟨henq, ?_, ?_⟩
    · rw [henq, List.length_map]
    · rw [henq, List.map_map]
      rfl
  · intro b a p repos tok sendOk ha hacc hp hsend hver
    have hm : a ∈ gitlabMRActions := by simpa using hacc
    have henq : (handleGitLab "Merge Request Hook".data (some b) (Except.ok repos) tok
        sendOk).enqueued
        = (repos.filter (fun r => r.status ≠ "paused".data)).map (mkGitLabPayload b a) := by
      cases repos with
      | nil => simp at hver
      | cons r rs =>
        have hlen : ¬ ((r :: rs).length = 0) := by simp
        simp only [handleGitLab, ha, hp]
        rw [enqueueFanout_all_ok _ _ _ hsend]
        simp [hlen, hm, hver]
    refine ⟨henq, ?_, ?_⟩
    · rw [henq, List.length_map]
    · rw [henq, List.map_map]
      rfl

/-- Witness for C7: two matched rows, one paused, all sends succeed — one
message is enqueued, carrying the active row's user id. -/
theorem c7_enqueue_count_witness :
    (handleGitHub "pull_request".data true true (some ghBodySample)
        (Except.ok [repoRowSample,
          { user_id := "u2".data, slug := "acme-api".data, name := "acme/api".data,
            status := "paused".data }])
        (fun _ => true)).enqueued.map (fun pl => pl.user_id)
      = ["u1".data] := by
  have h := (c7_enqueue_count.1 ghBodySample "opened".data "acme/api".data
    [repoRowSample,
     { user_id := "u2".data, slug := "acme-api".data, name := "acme/api".data,
       status := "paused".data }]
    (fun _ => true) rfl (by decide) rfl (by intro r hr; rfl)).2.2
  rw [h]
  decide

/-- Witness for C4 (amended) at concrete inputs: non-POST gives 405 and an
unknown source gives 400. -/
theorem c4_response_codes_witness :
    serveWebhook "GET".data none none (fun _ => ⟨200, []⟩) (fun _ => ⟨200, []⟩)
      = ⟨405, []⟩
    ∧ serveWebhook "POST".data none none (fun _ => ⟨200, []⟩) (fun _ => ⟨200, []⟩)
      = ⟨400, []⟩ := by
  constructor
  · exact c4_response_codes.1 "GET".data none none _ _ (by decide)
  · have h := c4_response_codes.2.1 "POST".data
      (fun _ => (⟨200, []⟩ : IngressResult)) (fun _ => (⟨200, []⟩ : IngressResult))
    simpa using h

-- ---------------------------------------------------------------------------
-- Diff annotation (worker/src/prompts/review.ts, src/unnamed/part_024
-- lines 636-745: `formatGitHubDiff` / `annotatePatch`)
-- ---------------------------------------------------------------------------

/-- JavaScript `s.split(sep)` for a single-character separator. -/
def splitOnChar (sep : Char) : Str → List Str
  | [] => [[]]
  | c :: cs =>
    let rest := splitOnChar sep cs
    if c = sep then [] :: rest
    else
      match rest with
      | r :: rs => (c :: r) :: rs
      | [] => [[c]]

/-- `parseInt` on a non-empty digit run. -/
def digitsToNat (s : Str) : Nat :=
  s.foldl (fun acc c => acc * 10 + (c.toNat - 48)) 0

/-- The optional `(?:,\d+)?` group of the hunk-header regex: a comma must be
followed by at least one digit, otherwise the whole match fails (the next
expected character is a space). -/
def afterOptComma (s : Str) : Option Str :=
  match s with
  | ',' :: rest =>
    let d := rest.takeWhile Char.isDigit
    if d = [] then none else some (rest.dropWhile Char.isDigit)
  | _ => some s

/-- part_024 line 723: `line.match(/^@@ -\d+(?:,\d+)? \+(\d+)(?:,\d+)? @@/)`,
returning the captured new-start number. -/
def hunkNewStart (l : Str) : Option Nat := do
  let s1 ← dropPre "@@ -".data l
  let d1 := s1.takeWhile Char.isDigit
  if d1 = [] then none
  else
    let s2 ← afterOptComma (s1.dropWhile Char.isDigit)
    let s3 ← dropPre " +".data s2
    let d2 := s3.takeWhile Char.isDigit
    if d2 = [] then none
    else
      let s4 ← afterOptComma (s3.dropWhile Char.isDigit)
      let _ ← dropPre " @@".data s4
      some (digitsToNat d2)

/-- part_024 lines 711-745 `annotatePatch`, as a loop over the split lines
carrying the current new-file line number and the emitted line count. -/
def annotateLoop : List Str → Nat → Nat → List Str
  | [], _, _ => []
  | l :: ls, newLine, lineCount =>
    if 500 ≤ lineCount then ["... (truncated)".data]
    else
      match hunkNewStart l with
      | some n => l :: annotateLoop ls n (lineCount + 1)
      | none =>
        if l.head? = some '+' then
          (natToStr newLine ++ ":".data ++ l) :: annotateLoop ls (newLine + 1) (lineCount + 1)
        else if l.head? = some '-' then
          ("   ".data ++ l) :: annotateLoop ls newLine (lineCount + 1)
        else
          (natToStr newLine ++ ": ".data ++ l) :: annotateLoop ls (newLine + 1) (lineCount + 1)

/-- The annotated lines of a patch. -/
def annotateLines (lines : List Str) : List Str := annotateLoop lines 0 0

/-- part_024 `annotatePatch`: split on newlines, annotate, re-join. -/
def annotatePatch (patch : Str) : Str :=
  List.intercalate "\n".data (annotateLines (splitOnChar '\n' patch))

/-- A GitHub PR file as consumed by the diff formatter. -/
structure PRFile where
  filename : Str
  status : Str
  additions : Nat := 0
  deletions : Nat := 0
  patch : Option Str := none
deriving DecidableEq

/-- part_024 lines 646-672 `formatGitHubDiff`: the per-file sections, with
the 100 000-char total cap, the skip of patch-less files, and the
15 000-char per-file cap. `allLen` is the length of the full input list
(used by the `N more files truncated` marker). -/
def ghDiffSections (allLen : Nat) : List PRFile → Nat → Nat → List Str
  | [], _, _ => []
  | f :: fs, totalChars, secCount =>
    if 100000 ≤ totalChars then
      ["\n... (".data ++ natToStr (allLen - secCount) ++ " more files truncated)".data]
    else
      match f.patch with
      | none => ghDiffSections allLen fs totalChars secCount
      | some p =>
        let header := "### ".data ++ f.filename ++ " (".data ++ f.status
          ++ ", +".data ++ natToStr f.additions ++ " -".data
          ++ natToStr f.deletions ++ ")".data
        let annotated := annotatePatch p
        let sec0 := header ++ "\n```diff\n".data ++ annotated ++ "\n```".data
        let sec :=
          if 15000 < sec0.length then
            header ++ "\n```diff\n".data ++ annotated.take 15000
              ++ "\n... (truncated)\n```".data
          else sec0
        sec :: ghDiffSections allLen fs (totalChars + sec.length) (secCount + 1)

/-- part_024 `formatGitHubDiff`: join the sections with blank lines. -/
def formatGitHubDiff (files : List PRFile) : Str :=
  List.intercalate "\n\n".data (ghDiffSections files.length files 0 0)

/-- The new-file line number the annotator assigns to line `i` of a patch,
written independently of the loop: start at 0, set to a hunk header's
new-start, increment on added and context lines only. -/
def stepNum (acc : Nat) (l : Str) : Nat :=
  match hunkNewStart l with
  | some n => n
  | none => if l.head? = some '-' then acc else acc + 1

def newLineNumberAt (lines : List Str) (i : Nat) : Nat :=
  (lines.take i).foldl stepNum 0

/-- How the annotator renders one input line given the current number. -/
def renderLine (n : Nat) (l : Str) : Str :=
  match hunkNewStart l with
  | some _ => l
  | none =>
    if l.head? = some '+' then natToStr n ++ ":".data ++ l
    else if l.head? = some '-' then "   ".data ++ l
    else natToStr n ++ ": ".data ++ l

lemma annotateLoop_getElem? (ls : List Str) (acc cnt i : Nat) (h : cnt + i < 500) :
    (annotateLoop ls acc cnt)[i]?
      = (ls[i]?).map (fun l => renderLine ((ls.take i).foldl stepNum acc) l) := by
  induction ls generalizing acc cnt i with
  | nil => simp [annotateLoop]
  | cons l ls ih =>
    have hcnt : ¬ (500 ≤ cnt) := by omega
    unfold annotateLoop
    rw [if_neg hcnt]
    cases hhunk : hunkNewStart l with
    | some n =>
      cases i with
      | zero => simp [renderLine, hhunk]
      | succ j =>
        have hj : (cnt + 1) + j < 500 := by omega
        simp only [List.getElem?_cons_succ, List.take_succ_cons, List.foldl_cons]
        rw [ih n (cnt + 1) j hj]
        have : stepNum acc l = n := by simp [stepNum, hhunk]
        rw [this]
    | none =>
      by_cases hplus : l.head? = some '+'
      · rw [if_pos hplus]
        cases i with
        | zero => simp [renderLine, hhunk, hplus]
        | succ j =>
          have hj : (cnt + 1) + j < 500 := by omega
          simp only [List.getElem?_cons_succ, List.take_succ_cons, List.foldl_cons]
          rw [ih (acc + 1) (cnt + 1) j hj]
          have : stepNum acc l = acc + 1 := by simp [stepNum, hhunk, hplus]
          rw [this]
      · rw [if_neg hplus]
        by_cases hminus : l.head? = some '-'
        · rw [if_pos hminus]
          cases i with
          | zero => simp [renderLine, hhunk, hplus, hminus]
          | succ j =>
            have hj : (cnt + 1) + j < 500 := by omega
            simp only [List.getElem?_cons_succ, List.take_succ_cons, List.foldl_cons]
            rw [ih acc (cnt + 1) j hj]
            have : stepNum acc l = acc := by simp [stepNum, hhunk, hminus]
            rw [this]
        · rw [if_neg hminus]
          cases i with
          | zero => simp [renderLine, hhunk, hplus, hminus]
          | succ j =>
            have hj : (cnt + 1) + j < 500 := by omega
            simp only [List.getElem?_cons_succ, List.take_succ_cons, List.foldl_cons]
            rw [ih (acc + 1) (cnt + 1) j hj]
            have : stepNum acc l = acc + 1 := by simp [stepNum, hhunk, hminus]
            rw [this]

lemma annotateLoop_length (ls : List Str) (acc cnt : Nat) (h : cnt + ls.length ≤ 500) :
    (annotateLoop ls acc cnt).length = ls.length := by
  induction ls generalizing acc cnt with
  | nil => rfl
  | cons l ls ih =>
    have hcnt : ¬ (500 ≤ cnt) := by simp at h; omega
    unfold annotateLoop
    rw [if_neg hcnt]
    have hrest : (cnt + 1) + ls.length ≤ 500 := by simp at h; omega
    cases hhunk : hunkNewStart l with
    | some n => simp [ih _ _ hrest]
    | none =>
      by_cases hplus : l.head? = some '+'
      · simp [hplus, ih _ _ hrest]
      · by_cases hminus : l.head? = some '-'
        · simp [hplus, hminus, ih _ _ hrest]
        · simp [hplus, hminus, ih _ _ hrest]

/-- A line whose first character is not `@` cannot match the hunk-header
regex. -/
lemma hunkNewStart_eq_none_of_head (l : Str) (c : Char) (hc : l.head? = some c)
    (hne : c ≠ '@') : hunkNewStart l = none := by
  cases l with
  | nil => simp at hc
  | cons d ds =>
    have hd : d = c := by simpa using hc
    subst hd
    unfold hunkNewStart
    have hnone : dropPre "@@ -".data (d :: ds) = none := by
      show dropPre ('@' :: "@ -".data) (d :: ds) = none
      unfold dropPre
      rw [if_neg (fun h => hne h.symm)]
    rw [hnone]
    rfl

/-- C8: within the 500-line per-file cap, the annotator maps the `i`-th
patch line to: the line itself for hunk headers; `N:+…` for added lines;
three spaces and the raw `-…` line for removed lines; `N: …` for context
lines — where `N` is the new-file line number obtained by starting at the
hunk header's new-start and incrementing on added and context lines only.
Added lines therefore appear in the output with their correct `N:+` prefix,
and a patch at most 500 lines long loses no lines. -/
theorem c8_annotate_lines (lines : List Str) (i : Nat) (l : Str)
    (hi : i < 500) (hget : lines[i]? = some l) :
    (l.head? = some '+' →
      (annotateLines lines)[i]? = some (natToStr (newLineNumberAt lines i) ++ ":".data ++ l)
      ∧ (natToStr (newLineNumberAt lines i) ++ ":".data ++ l) ∈ annotateLines lines)
    ∧ (l.head? = some '-' →
      (annotateLines lines)[i]? = some ("   ".data ++ l)
      ∧ ("   ".data ++ l) ∈ annotateLines lines)
    ∧ (l.head? ≠ some '+' → l.head? ≠ some '-' → hunkNewStart l = none →
      (annotateLines lines)[i]? = some (natToStr (newLineNumberAt lines i) ++ ": ".data ++ l))
    ∧ (hunkNewStart l ≠ none → (annotateLines lines)[i]? = some l)
    ∧ (lines.length ≤ 500 → (annotateLines lines).length = lines.length) := by
  have hbase := annotateLoop_getElem? lines 0 0 i (by omega)
  rw [hget] at hbase
  have hbase' : (annotateLines lines)[i]?
      = some (renderLine (newLineNumberAt lines i) l) := by
    rw [show annotateLines lines = annotateLoop lines 0 0 from rfl, hbase]
    rfl
  have hmem : ∀ x, (annotateLines lines)[i]? = some x → x ∈ annotateLines lines := by
    intro x hx
    exact List.get?_mem ((List.get?_eq_getElem? _ _).trans hx)
  refine ⟨?_, ?_, ?_, ?_, ?_⟩
  · intro hplus
    have hhunk : hunkNewStart l = none :=
      hunkNewStart_eq_none_of_head l '+' hplus (by decide)
    have hr : renderLine (newLineNumberAt lines i) l
        = natToStr (newLineNumberAt lines i) ++ ":".data ++ l := by
      unfold renderLine
      rw [hhunk]
      simp [hplus]
    rw [hr] at hbase'
    exact ⟨hbase', hmem _ hbase'⟩
  · intro hminus
    have hhunk : hunkNewStart l = none :=
      hunkNewStart_eq_none_of_head l '-' hminus (by decide)
    have hplus : ¬ (l.head? = some '+') := by
      rw [hminus]
      simp
    have hr : renderLine (newLineNumberAt lines i) l = "   ".data ++ l := by
      unfold renderLine
      rw [hhunk]
      simp [hplus, hminus]
    rw [hr] at hbase'
    exact ⟨hbase', hmem _ hbase'⟩
  · intro hplus hminus hhunk
    have hr : renderLine (newLineNumberAt lines i) l
        = natToStr (newLineNumberAt lines i) ++ ": ".data ++ l := by
      unfold renderLine
      rw [hhunk]
      simp [hplus, hminus]
    rw [hr] at hbase'
    exact hbase'
  · intro hhunk
    rcases Option.ne_none_iff_exists.mp hhunk with ⟨n, hn⟩
    have hr : renderLine (newLineNumberAt lines i) l = l := by
      unfold renderLine
      rw [← hn]
    rw [hr] at hbase'
    exact hbase'
  · intro hlen
    exact annotateLoop_length lines 0 0 (by omega)

/-- Witness for C8 on a small concrete patch: the added line of
`@@ -1,2 +10,3 @@` + context/removed/added lines is numbered from 10. -/
theorem c8_annotate_lines_witness :
    (annotateLines ["@@ -1,2 +10,3 @@".data, " ctx".data, "-old".data, "+new".data])[3]?
      = some "11:+new".data := by
  have h := (c8_annotate_lines
    ["@@ -1,2 +10,3 @@".data, " ctx".data, "-old".data, "+new".data]
    3 "+new".data (by omega) (by decide)).1 (by decide)
  have heq : natToStr (newLineNumberAt
      ["@@ -1,2 +10,3 @@".data, " ctx".data, "-old".data, "+new".data] 3)
      ++ ":".data ++ "+new".data = "11:+new".data := by decide
  rw [← heq]
  exact h.1

-- ---------------------------------------------------------------------------
-- JSON values and a model of JavaScript `JSON.parse`
-- ---------------------------------------------------------------------------

/-- The opening brace character (written via its code point). -/
def lbraceCh : Char := Char.ofNat 123

/-- The closing brace character (written via its code point). -/
def rbraceCh : Char := Char.ofNat 125

/-- A parsed JSON value.  Number tokens are kept raw (no claim depends on
numeric value interpretation). -/
inductive Json where
  | null
  | bool (b : Bool)
  | num (tok : Str)
  | str (s : Str)
  | arr (xs : List Json)
  | obj (fields : List (Str × Json))

/-- JSON insignificant whitespace (exactly space, tab, LF, CR). -/
def skipWs (s : Str) : Str :=
  s.dropWhile (fun c => c = ' ' || c = '\t' || c = '\n' || c = '\r')

def hexVal (c : Char) : Option Nat :=
  if '0' ≤ c ∧ c ≤ '9' then some (c.toNat - 48)
  else if 'a' ≤ c ∧ c ≤ 'f' then some (c.toNat - 87)
  else if 'A' ≤ c ∧ c ≤ 'F' then some (c.toNat - 55)
  else none

mutual

/-- Parse the body of a JSON string literal (after the opening quote) up to
the closing quote, decoding escapes.  A literal control character
(code point `< 0x20`) is a syntax error, exactly as in `JSON.parse`. -/
def parseStringBody : Str → Option (Str × Str)
  | [] => none
  | c :: rest =>
    if c = '"' then some ([], rest)
    else if c = '\\' then parseStringEscape rest
    else if c.toNat < 32 then none
    else (parseStringBody rest).map (fun p => (c :: p.1, p.2))

/-- Decode the character after a backslash inside a string literal. -/
def parseStringEscape : Str → Option (Str × Str)
  | [] => none
  | e :: rest2 =>
    if e = '"' then (parseStringBody rest2).map (fun p => ('"' :: p.1, p.2))
    else if e = '\\' then (parseStringBody rest2).map (fun p => ('\\' :: p.1, p.2))
    else if e = '/' then (parseStringBody rest2).map (fun p => ('/' :: p.1, p.2))
    else if e = 'b' then (parseStringBody rest2).map (fun p => ('\x08' :: p.1, p.2))
    else if e = 'f' then (parseStringBody rest2).map (fun p => ('\x0c' :: p.1, p.2))
    else if e = 'n' then (parseStringBody rest2).map (fun p => ('\n' :: p.1, p.2))
    else if e = 'r' then (parseStringBody rest2).map (fun p => ('\r' :: p.1, p.2))
    else if e = 't' then (parseStringBody rest2).map (fun p => ('\t' :: p.1, p.2))
    else if e = 'u' then parseStringHex rest2
    else none

/-- Decode a `\uXXXX` escape (four hex digits). -/
def parseStringHex : Str → Option (Str × Str)
  | h1 :: h2 :: h3 :: h4 :: rest3 =>
    match hexVal h1, hexVal h2, hexVal h3, hexVal h4 with
    | some x1, some x2, some x3, some x4 =>
      (parseStringBody rest3).map
        (fun p => (Char.ofNat (x1 * 4096 + x2 * 256 + x3 * 16 + x4) :: p.1, p.2))
    | _, _, _, _ => none
  | _ => none

end

/-- Parse a JSON number token (sign, integer part without leading zeros,
optional fraction, optional exponent), returning the raw token and the
remainder. -/
def parseNumberTok (s : Str) : Option (Str × Str) :=
  let (neg, s1) : Str × Str :=
    match s with
    | '-' :: r => (['-'], r)
    | _ => ([], s)
  match s1 with
  | [] => none
  | c :: _ =>
    if ! c.isDigit then none
    else
      let intPart : Str := if c = '0' then ['0'] else s1.takeWhile Char.isDigit
      let s2 := s1.drop intPart.length
      let (frac, s3) : Str × Str :=
        match s2 with
        | '.' :: r =>
          let d := r.takeWhile Char.isDigit
          if d = [] then ([], s2) else ('.' :: d, r.dropWhile Char.isDigit)
        | _ => ([], s2)
      let (ex, s4) : Str × Str :=
        match s3 with
        | e :: r =>
          if e = 'e' ∨ e = 'E' then
            let (sign, r2) : Str × Str :=
              match r with
              | '+' :: rr => (['+'], rr)
              | '-' :: rr => (['-'], rr)
              | _ => ([], r)
            let d := r2.takeWhile Char.isDigit
            if d = [] then ([], s3) else (e :: sign ++ d, r2.dropWhile Char.isDigit)
          else ([], s3)
        | [] => ([], s3)
      some (neg ++ intPart ++ frac ++ ex, s4)

mutual

/-- Parse one JSON value at the head of the input (fuel-indexed recursive
descent faithful to the `JSON.parse` grammar). -/
def parseValue : Nat → Str → Option (Json × Str)
  | 0, _ => none
  | fuel + 1, s =>
    match s with
    | [] => none
    | c :: rest =>
      if c = '"' then (parseStringBody rest).map (fun p => (Json.str p.1, p.2))
      else if c = lbraceCh then parseObjectBody fuel (skipWs rest)
      else if c = '[' then parseArrayBody fuel (skipWs rest)
      else if c = 't' then (dropPre "rue".data rest).map (fun r => (Json.bool true, r))
      else if c = 'f' then (dropPre "alse".data rest).map (fun r => (Json.bool false, r))
      else if c = 'n' then (dropPre "ull".data rest).map (fun r => (Json.null, r))
      else (parseNumberTok s).map (fun p => (Json.num p.1, p.2))

/-- After an opening brace (whitespace skipped): empty object or members. -/
def parseObjectBody : Nat → Str → Option (Json × Str)
  | 0, _ => none
  | fuel + 1, s =>
    match s with
    | [] => none
    | c :: rest =>
      if c = rbraceCh then some (Json.obj [], rest)
      else parseMembers fuel [] s

/-- Parse `"key": value` pairs separated by commas, ending at a brace. -/
def parseMembers : Nat → List (Str × Json) → Str → Option (Json × Str)
  | 0, _, _ => none
  | fuel + 1, acc, s =>
    match s with
    | [] => none
    | c :: rest =>
      if c = '"' then
        match parseStringBody rest with
        | none => none
        | some (key, s1) =>
          match skipWs s1 with
          | ':' :: s2 =>
            match parseValue fuel (skipWs s2) with
            | none => none
            | some (v, s3) =>
              match skipWs s3 with
              | ',' :: s4 => parseMembers fuel (acc ++ [(key, v)]) (skipWs s4)
              | c2 :: s4 =>
                if c2 = rbraceCh then some (Json.obj (acc ++ [(key, v)]), s4) else none
              | [] => none
          | _ => none
      else none

/-- After an opening bracket (whitespace skipped): empty array or elements. -/
def parseArrayBody : Nat → Str → Option (Json × Str)
  | 0, _ => none
  | fuel + 1, s =>
    match s with
    | [] => none
    | c :: rest =>
      if c = ']' then some (Json.arr [], rest)
      else parseElements fuel [] s

/-- Parse array elements separated by commas, ending at `]`. -/
def parseElements : Nat → List Json → Str → Option (Json × Str)
  | 0, _, _ => none
  | fuel + 1, acc, s =>
    match parseValue fuel s with
    | none => none
    | some (v, s1) =>
      match skipWs s1 with
      | ',' :: s2 => parseElements fuel (acc ++ [v]) (skipWs s2)
      | ']' :: s2 => some (Json.arr (acc ++ [v]), s2)
      | _ => none

end

/-- `JSON.parse`: one value surrounded by optional whitespace. -/
def jsonParse (s : Str) : Option Json :=
  match parseValue (s.length + 1) (skipWs s) with
  | some (v, rest) => if skipWs rest = [] then some v else none
  | none => none

-- ---------------------------------------------------------------------------
-- Fence stripping (worker/src/llm.ts lines 45-58, part_008 lines 377-387)
-- ---------------------------------------------------------------------------

/-- Trim, strip a leading ```` ```json ```` or ```` ``` ```` fence, strip a
trailing ```` ``` ```` fence, trim again.  This exact sequence appears both
in the worker `parseJSON` and in the interview `parseAgentResponse`. -/
def stripFences (raw : Str) : Str :=
  let c0 := trimChars raw
  let c1 :=
    match dropPre "```json".data c0 with
    | some rest => rest
    | none =>
      match dropPre "```".data c0 with
      | some rest => rest
      | none => c0
  let c2 :=
    match dropSuf "```".data c1 with
    | some front => front
    | none => c1
  trimChars c2

/-- worker/src/llm.ts lines 45-58 `parseJSON`: strip fences and attempt one
standard JSON parse.  There is no sanitizer retry on this path; a parse
failure is a thrown exception, modelled as `none`. -/
def parseJSON (raw : Str) : Option Json :=
  jsonParse (stripFences raw)

-- ---------------------------------------------------------------------------
-- Scanner-based sanitizer (part_008 lines 335-374 `sanitizeJsonString`)
-- and the interview parse stage (part_008 lines 376-397)
-- ---------------------------------------------------------------------------

/-- The scanner loop: track whether inside a string literal and whether the
previous character was a backslash; inside strings replace raw newline,
carriage return and tab with their two-character escapes; copy everything
else unchanged. -/
def sanitizeLoop : Str → Bool → Bool → Str
  | [], _, _ => []
  | ch :: rest, inString, escaped =>
    if escaped then ch :: sanitizeLoop rest inString false
    else if ch = '\\' ∧ inString then ch :: sanitizeLoop rest inString true
    else if ch = '"' then ch :: sanitizeLoop rest (! inString) false
    else if inString then
      if ch = '\n' then '\\' :: 'n' :: sanitizeLoop rest inString false
      else if ch = '\r' then '\\' :: 'r' :: sanitizeLoop rest inString false
      else if ch = '\t' then '\\' :: 't' :: sanitizeLoop rest inString false
      else ch :: sanitizeLoop rest inString false
    else ch :: sanitizeLoop rest inString false

def sanitizeJsonString (json : Str) : Str := sanitizeLoop json false false

/-- part_008 lines 376-397: the parse stage of `parseAgentResponse` — strip
fences, try a standard parse, and on failure sanitize and retry. -/
def parseAgentResponseJson (raw : Str) : Option Json :=
  let cleaned := stripFences raw
  match jsonParse cleaned with
  | some v => some v
  | none => jsonParse (sanitizeJsonString cleaned)

-- ---------------------------------------------------------------------------
-- Reviewer parse stage and scheduler retry behaviour
-- (worker/src/review.ts lines 385-408 and 485-488, worker/src/index.ts 37-63)
-- ---------------------------------------------------------------------------

/-- Field access `obj.name` on a parsed JSON value (`undefined` is `none`;
on duplicate keys JavaScript keeps the last). -/
def getField (j : Json) (name : Str) : Option Json :=
  match j with
  | Json.obj fields => ((fields.filter (fun f => f.1 = name)).getLast?).map (fun f => f.2)
  | _ => none

/-- worker/src/review.ts lines 405-408: require `result.comments` to exist
and be an array; otherwise throw `Invalid review response shape`. -/
def extractReviewComments (j : Json) : Except Str (List Json) :=
  match getField j "comments".data with
  | some (Json.arr xs) => Except.ok xs
  | _ => Except.error "Invalid review response shape".data

/-- Whether a review job run ends normally or by throwing. -/
inductive ReviewOutcome where
  | completed
  | failed
deriving DecidableEq

/-- worker/src/review.ts lines 385-408 with the catch block at 485-488: an
empty extracted output, a JSON parse failure, or an invalid shape all throw,
and the catch re-throws; only a successfully parsed comment list continues
into the rest of the job (abstracted as `rest`). -/
def reviewAgentOutputStage (rawOutput : Str) (rest : List Json → ReviewOutcome) :
    ReviewOutcome :=
  if trimChars rawOutput = [] then ReviewOutcome.failed
  else
    match parseJSON rawOutput with
    | none => ReviewOutcome.failed
    | some j =>
      match extractReviewComments j with
      | Except.error _ => ReviewOutcome.failed
      | Except.ok comments => rest comments

/-- What happens to the queue message after one worker iteration. -/
inductive MsgAction where
  | deleted
  | kept
deriving DecidableEq

/-- worker/src/index.ts lines 37-63 `pollWebhooks`: give up (delete) when
`read_ct > 3`; run the reviewer for `pr_opened`/`pr_updated` and delete on
normal return; keep the message for redelivery when the reviewer throws;
other event types are skipped and deleted. -/
def pollWebhooksStep (read_ct : Nat) (event_type : Str) (runReview : ReviewOutcome) :
    MsgAction :=
  if 3 < read_ct then MsgAction.deleted
  else if event_type = "pr_opened".data ∨ event_type = "pr_updated".data then
    match runReview with
    | ReviewOutcome.completed => MsgAction.deleted
    | ReviewOutcome.failed => MsgAction.kept
  else MsgAction.deleted

/-- C2 counterexample: when the agent output fails to parse as JSON, the
reviewer throws and the first-delivery message is kept for redelivery — not
consumed as the claim states.  The same bad invocation is therefore re-run. -/
theorem c2_malformed_output_message_kept :
    pollWebhooksStep 1 "pr_opened".data
        (reviewAgentOutputStage "not json".data (fun _ => ReviewOutcome.completed))
      = MsgAction.kept
    ∧ pollWebhooksStep 1 "pr_opened".data
        (reviewAgentOutputStage "not json".data (fun _ => ReviewOutcome.completed))
      ≠ MsgAction.deleted := by
  have hk : pollWebhooksStep 1 "pr_opened".data
      (reviewAgentOutputStage "not json".data (fun _ => ReviewOutcome.completed))
      = MsgAction.kept := rfl
  refine ⟨hk, fun h => ?_⟩
  rw [hk] at h
  exact absurd h (by decide)

/-- C2 (amended): a malformed or invalidly shaped agent output makes the
reviewer throw; the scheduler keeps the message for redelivery while
`read_ct ≤ 3` and deletes it (gives up) only when `read_ct > 3`. -/
theorem c2_parse_failure_redelivery (read_ct : Nat) (raw : Str)
    (rest : List Json → ReviewOutcome)
    (hbad : parseJSON raw = none
      ∨ ∃ j, parseJSON raw = some j
          ∧ extractReviewComments j
            = Except.error "Invalid review response shape".data) :
    reviewAgentOutputStage raw rest = ReviewOutcome.failed
    ∧ (read_ct ≤ 3 →
        pollWebhooksStep read_ct "pr_opened".data (reviewAgentOutputStage raw rest)
          = MsgAction.kept)
    ∧ (3 < read_ct →
        pollWebhooksStep read_ct "pr_opened".data (reviewAgentOutputStage raw rest)
          = MsgAction.deleted) := by
  have hfail : reviewAgentOutputStage raw rest = ReviewOutcome.failed := by
    unfold reviewAgentOutputStage
    by_cases htrim : trimChars raw = []
    · rw [if_pos htrim]
    · rw [if_neg htrim]
      rcases hbad with hnone | ⟨j, hj, hshape⟩
      · rw [hnone]
      · rw [hj]
        show (match extractReviewComments j with
          | Except.error _ => ReviewOutcome.failed
          | Except.ok comments => rest comments) = ReviewOutcome.failed
        rw [hshape]
  refine ⟨hfail, ?_, ?_⟩
  · intro hle
    have h3 : ¬ (3 < read_ct) := by omega
    unfold pollWebhooksStep
    rw [if_neg h3, if_pos (Or.inl rfl), hfail]
  · intro hgt
    unfold pollWebhooksStep
    rw [if_pos hgt]

/-- Witness for C2 (amended) at a concrete bad output and `read_ct = 2`. -/
theorem c2_parse_failure_redelivery_witness :
    pollWebhooksStep 2 "pr_opened".data
        (reviewAgentOutputStage "\x7d\x7b".data (fun _ => ReviewOutcome.completed))
      = MsgAction.kept := by
  exact (c2_parse_failure_redelivery 2 "\x7d\x7b".data (fun _ => ReviewOutcome.completed)
    (Or.inl rfl)).2.1 (by omega)

-- ---------------------------------------------------------------------------
-- C3: where the sanitizer retry lives
-- ---------------------------------------------------------------------------

/-- A character that is not a quote, not a backslash and not a control
character: it passes through both the string scanner of the parser and the
sanitizer unchanged. -/
def plainChar (c : Char) : Prop := c ≠ '"' ∧ c ≠ '\\' ∧ 32 ≤ c.toNat

instance (c : Char) : Decidable (plainChar c) := by
  unfold plainChar
  infer_instance

/-- The JSON text `\x7b"message":"<a>\n<b>"\x7d` with a literal (raw)
newline between `a` and `b` — a payload whose only defect is a literal
control character inside a string value. -/
def ctrlPayload (a b : Str) : Str :=
  [lbraceCh, '"', 'm', 'e', 's', 's', 'a', 'g', 'e', '"', ':', '"']
    ++ (a ++ ('\n' :: (b ++ ['"', rbraceCh])))

/-- The same text with the newline written as the two-character escape. -/
def ctrlPayloadEscaped (a b : Str) : Str :=
  [lbraceCh, '"', 'm', 'e', 's', 's', 'a', 'g', 'e', '"', ':', '"']
    ++ (a ++ ('\\' :: 'n' :: (b ++ ['"', rbraceCh])))

lemma dropPre_head_ne (c d : Char) (cs s : Str) (h : ¬ (c = d)) :
    dropPre (c :: cs) (d :: s) = none := by
  unfold dropPre
  rw [if_neg h]

lemma parseStringBody_plain_append (k : Str) (hk : ∀ c ∈ k, plainChar c) (rest : Str) :
    parseStringBody (k ++ rest)
      = (parseStringBody rest).map (fun p => (k ++ p.1, p.2)) := by
  induction k with
  | nil =>
    cases h : parseStringBody rest <;> simp [h]
  | cons c k ih =>
    have hc : plainChar c := hk c (by simp)
    have hk' : ∀ x ∈ k, plainChar x := fun x hx => hk x (by simp [hx])
    have hq : ¬ (c = '"') := hc.1
    have hbs : ¬ (c = '\\') := hc.2.1
    have hctrl : ¬ (c.toNat < 32) := by
      have := hc.2.2
      omega
    show parseStringBody (c :: (k ++ rest)) = _
    rw [parseStringBody, if_neg hq, if_neg hbs, if_neg hctrl, ih hk']
    cases h : parseStringBody rest <;> simp

lemma sanitizeLoop_plain_append (k : Str) (hk : ∀ c ∈ k, plainChar c) (rest : Str) :
    sanitizeLoop (k ++ rest) true false = k ++ sanitizeLoop rest true false := by
  induction k with
  | nil => rfl
  | cons c k ih =>
    have hc : plainChar c := hk c (by simp)
    have hk' : ∀ x ∈ k, plainChar x := fun x hx => hk x (by simp [hx])
    have hq : ¬ (c = '"') := hc.1
    have hbs : ¬ (c = '\\' ∧ True) := fun h => hc.2.1 h.1
    have hn : ¬ (c = '\n') := by
      intro h
      subst h
      have := hc.2.2
      simp at this
    have hr : ¬ (c = '\r') := by
      intro h
      subst h
      have := hc.2.2
      simp at this
    have ht : ¬ (c = '\t') := by
      intro h
      subst h
      have := hc.2.2
      simp at this
    have hbs2 : ¬ (c = '\\') := hc.2.1
    show sanitizeLoop (c :: (k ++ rest)) true false = _
    rw [sanitizeLoop]
    simp only [Bool.false_eq_true, if_false, hbs2, false_and, hq, if_true,
      hn, hr, ht, ite_false, ih hk']
    simp [hq, hbs2, hn, hr, ht, ih hk']

/-- The reversed payload starts with the closing brace. -/
lemma ctrlPayload_reverse (a b : Str) :
    ∃ t, (ctrlPayload a b).reverse = rbraceCh :: t := by
  unfold ctrlPayload
  simp [List.reverse_append]

lemma trimChars_ctrlPayload (a b : Str) : trimChars (ctrlPayload a b) = ctrlPayload a b := by
  obtain ⟨t, ht⟩ := ctrlPayload_reverse a b
  unfold trimChars
  have h1 : (ctrlPayload a b).dropWhile jsWhitespace = ctrlPayload a b := rfl
  rw [h1, ht]
  have h2 : (rbraceCh :: t).dropWhile jsWhitespace = rbraceCh :: t := by
    rw [List.dropWhile_cons]
    simp [jsWhitespace, rbraceCh]
  rw [h2, ← ht, List.reverse_reverse]

lemma stripFences_ctrlPayload (a b : Str) :
    stripFences (ctrlPayload a b) = ctrlPayload a b := by
  obtain ⟨t, ht⟩ := ctrlPayload_reverse a b
  have hjson : dropPre "```json".data (ctrlPayload a b) = none := rfl
  have hfence : dropPre "```".data (ctrlPayload a b) = none := rfl
  have hsuf : dropSuf "```".data (ctrlPayload a b) = none := by
    unfold dropSuf
    rw [ht]
    rw [show ("```".data).reverse = '`' :: '`' :: '`' :: [] from rfl]
    rw [dropPre_head_ne _ _ _ _ (by decide)]
    rfl
  simp only [stripFences, trimChars_ctrlPayload, hjson, hfence, hsuf]

/-- Parsing the raw payload fails: the scanner hits the literal newline
inside the string value and `JSON.parse` rejects it. -/
lemma parseValue_ctrlPayload (a b : Str) (ha : ∀ c ∈ a, plainChar c) (f : Nat) :
    parseValue (f + 4) (ctrlPayload a b) = none := by
  have htail : parseStringBody (a ++ ('\n' :: (b ++ ['"', rbraceCh]))) = none := by
    rw [parseStringBody_plain_append a ha]
    rfl
  have h1 : parseValue (f + 4) (ctrlPayload a b)
      = (match (parseStringBody (a ++ ('\n' :: (b ++ ['"', rbraceCh])))).map
            (fun p => (Json.str p.1, p.2)) with
         | none => none
         | some (v, s3) =>
           match skipWs s3 with
           | ',' :: s4 => parseMembers (f + 1) [("message".data, v)] (skipWs s4)
           | c2 :: s4 =>
             if c2 = rbraceCh then some (Json.obj [("message".data, v)], s4) else none
           | [] => none) := rfl
  rw [h1, htail]
  rfl

lemma jsonParse_ctrlPayload (a b : Str) (ha : ∀ c ∈ a, plainChar c) :
    jsonParse (ctrlPayload a b) = none := by
  have hws : skipWs (ctrlPayload a b) = ctrlPayload a b := rfl
  have hlen : (ctrlPayload a b).length + 1 = (a.length + b.length + 12) + 4 := by
    simp [ctrlPayload]
    omega
  unfold jsonParse
  rw [hws, hlen, parseValue_ctrlPayload a b ha]

/-- Parsing the escaped payload succeeds and decodes the escape back into a
newline character. -/
lemma parseValue_ctrlPayloadEscaped (a b : Str)
    (ha : ∀ c ∈ a, plainChar c) (hb : ∀ c ∈ b, plainChar c) (f : Nat) :
    parseValue (f + 4) (ctrlPayloadEscaped a b)
      = some (Json.obj [("message".data, Json.str (a ++ '\n' :: b))], []) := by
  have htail : parseStringBody (a ++ ('\\' :: 'n' :: (b ++ ['"', rbraceCh])))
      = some (a ++ '\n' :: b, [rbraceCh]) := by
    rw [parseStringBody_plain_append a ha]
    rw [show parseStringBody ('\\' :: 'n' :: (b ++ ['"', rbraceCh]))
        = (parseStringBody (b ++ ['"', rbraceCh])).map (fun p => ('\n' :: p.1, p.2))
      from rfl]
    rw [parseStringBody_plain_append b hb]
    rw [show parseStringBody ['"', rbraceCh] = some ([], [rbraceCh]) from rfl]
    simp
  have h1 : parseValue (f + 4) (ctrlPayloadEscaped a b)
      = (match (parseStringBody (a ++ ('\\' :: 'n' :: (b ++ ['"', rbraceCh])))).map
            (fun p => (Json.str p.1, p.2)) with
         | none => none
         | some (v, s3) =>
           match skipWs s3 with
           | ',' :: s4 => parseMembers (f + 1) [("message".data, v)] (skipWs s4)
           | c2 :: s4 =>
             if c2 = rbraceCh then some (Json.obj [("message".data, v)], s4) else none
           | [] => none) := rfl
  rw [h1, htail]
  rfl

lemma jsonParse_ctrlPayloadEscaped (a b : Str)
    (ha : ∀ c ∈ a, plainChar c) (hb : ∀ c ∈ b, plainChar c) :
    jsonParse (ctrlPayloadEscaped a b)
      = some (Json.obj [("message".data, Json.str (a ++ '\n' :: b))]) := by
  have hws : skipWs (ctrlPayloadEscaped a b) = ctrlPayloadEscaped a b := rfl
  have hlen : (ctrlPayloadEscaped a b).length + 1 = (a.length + b.length + 13) + 4 := by
    simp [ctrlPayloadEscaped]
    omega
  unfold jsonParse
  rw [hws, hlen, parseValue_ctrlPayloadEscaped a b ha hb]
  rfl

/-- The sanitizer rewrites exactly the literal newline into its escape. -/
lemma sanitizeJsonString_ctrlPayload (a b : Str)
    (ha : ∀ c ∈ a, plainChar c) (hb : ∀ c ∈ b, plainChar c) :
    sanitizeJsonString (ctrlPayload a b) = ctrlPayloadEscaped a b := by
  have hpre : sanitizeJsonString (ctrlPayload a b)
      = [lbraceCh, '"', 'm', 'e', 's', 's', 'a', 'g', 'e', '"', ':', '"']
        ++ sanitizeLoop (a ++ ('\n' :: (b ++ ['"', rbraceCh]))) true false := rfl
  rw [hpre, sanitizeLoop_plain_append a ha]
  rw [show sanitizeLoop ('\n' :: (b ++ ['"', rbraceCh])) true false
      = '\\' :: 'n' :: sanitizeLoop (b ++ ['"', rbraceCh]) true false from rfl]
  rw [sanitizeLoop_plain_append b hb]
  rw [show sanitizeLoop ['"', rbraceCh] true false = ['"', rbraceCh] from rfl]
  unfold ctrlPayloadEscaped
  simp

/-- C3 counterexample: on a review payload whose only defect is a literal
newline inside a string value, the review path's `parseJSON` (fence strip
plus one standard parse) fails — the claim's sanitize-and-retry behaviour
does not happen there; the same text parses after escaping the newline, and
the interview parser `parseAgentResponse` (which does sanitize and retry)
accepts the raw payload. -/
theorem c3_review_parse_not_sanitized :
    parseJSON (ctrlPayload "line one".data "line two".data) = none
    ∧ jsonParse (ctrlPayloadEscaped "line one".data "line two".data)
        = some (Json.obj [("message".data, Json.str "line one\nline two".data)])
    ∧ parseAgentResponseJson (ctrlPayload "line one".data "line two".data)
        = some (Json.obj [("message".data, Json.str "line one\nline two".data)]) :=
  ⟨rfl, rfl, rfl⟩

/-- C3 (amended): the scanner-based sanitizer retry described by the claim
is applied only in the interview-response parser (`parseAgentResponse` in
the web app); the worker's review path (`parseJSON` in llm.ts) strips fences
and performs a single standard JSON parse only.  For any payload of shape
`\x7b"message":"<a>\n<b>"\x7d` made of plain characters around a literal
newline: the review parse fails, the sanitizer rewrites the newline to its
escape leaving everything else unchanged, and the interview parse stage
succeeds with the decoded object. -/
theorem c3_sanitizer_interview_only (a b : Str)
    (ha : ∀ c ∈ a, plainChar c) (hb : ∀ c ∈ b, plainChar c) :
    parseJSON (ctrlPayload a b) = none
    ∧ sanitizeJsonString (ctrlPayload a b) = ctrlPayloadEscaped a b
    ∧ parseAgentResponseJson (ctrlPayload a b)
        = some (Json.obj [("message".data, Json.str (a ++ '\n' :: b))]) := by
  have hstrip := stripFences_ctrlPayload a b
  have hparse : parseJSON (ctrlPayload a b) = none := by
    unfold parseJSON
    rw [hstrip, jsonParse_ctrlPayload a b ha]
  refine ⟨hparse, sanitizeJsonString_ctrlPayload a b ha hb, ?_⟩
  simp only [parseAgentResponseJson, hstrip, jsonParse_ctrlPayload a b ha,
    sanitizeJsonString_ctrlPayload a b ha hb,
    jsonParse_ctrlPayloadEscaped a b ha hb]

/-- Witness for C3 (amended) at a concrete payload. -/
theorem c3_sanitizer_interview_only_witness :
    parseJSON (ctrlPayload "spec scenario".data "six".data) = none
    ∧ parseAgentResponseJson (ctrlPayload "spec scenario".data "six".data)
        = some (Json.obj [("message".data, Json.str "spec scenario\nsix".data)]) := by
  have h := c3_sanitizer_interview_only "spec scenario".data "six".data
    (by decide) (by decide)
  exact ⟨h.1, h.2.2⟩

end Reviewbot
